import Mathlib

/-!
Verification development for the reactive materialization engine of
`knockout-decorators` (sources: `dist/knockout-decorators.esm.js` and
`src/knockout-decorators.ts`).

The definitions below are a shallow embedding of the engine's code:

* Section A embeds the shallow array interception layer
  (`defineObservableArray` / `patchArrayMethods`, dist lines 187-262 and
  352-367): the exposed array's patched mutating methods, the backing
  `ko.observableArray` cell (modelled at its interface boundary:
  `valueWillMutate` / native mutation of the underlying array /
  `valueHasMutated` firing exactly one change notification), the
  `insideObsArray` re-entrancy flag, and the shallow `set` override.
* Section B embeds the deep-mode layer (`prepareDeepValue`,
  `prepareDeepObject`, and the deep `push`/`unshift`/`splice`/`replace`/
  `mutate`/`set` overrides, dist lines 137-176 and 263-351).
* Section C embeds the assignment `setter` of `defineObservableArray`
  (dist lines 201-240): stripping of a detached exposed array and cloning
  of an already-marked incoming array, over an explicit heap of array
  objects so that reference identity and aliasing are modelled.
* Section D embeds the `{once: true}` subscription wrapper
  (ts lines 341-346 and 357-364).
* Section E embeds the `"arrayChange"` branch of `subscribe`
  (ts lines 366-373, dist lines 569-577).
* Section F embeds `applyExtenders` / `defineExtenders`
  (dist lines 84-111) over an explicit heap of extender arrays, so that
  the copy-on-write cloning of the prototype dictionary is modelled.
* Section G embeds the scalar `@observable` accessor pair
  (`observableDecorator`, dist lines 404-421).
* Section H embeds `unwrap` (ts lines 403-410) together with the
  prototype getters it may trigger.
* Section I embeds the hidden-computed "change" subscription chain of
  `subscribe` (dist lines 579-586 versus ts lines 374-385) together with
  knockout's `valuesArePrimitive` equality comparer.
-/

/-! ### Section A: shallow array interception (dist lines 182-262, 352-367) -/

/-- A mutating call on a JS array, with JS argument arities made explicit
(`splice0`/`splice1`/`spliceN` are `splice()` with 0, 1, or ≥ 2 arguments). -/
inductive ArrOp where
  | push (xs : List Int)
  | pop
  | shift
  | unshift (xs : List Int)
  | splice0
  | splice1 (start : Int)
  | spliceN (start delCount : Int) (items : List Int)
  | reverse
  | sort
  deriving DecidableEq, Repr

/-- Return value of a JS array method: `push`/`unshift` return the new
length, `pop`/`shift` return the removed element (or `undefined`),
`splice` returns the removed slice, `reverse`/`sort` return the array. -/
inductive RVal where
  | num (n : Nat)
  | elem (v : Option Int)
  | list (l : List Int)
  deriving DecidableEq, Repr

/-- Result of a call through the interception layer: a normal JS return
value, an exception propagating out of the call (`raised`), or exhaustion
of the recursion fuel of the model (never reached at the fuel bounds used
in the theorems below). -/
inductive CallRes where
  | ok (r : RVal)
  | raised
  | fuelOut
  deriving DecidableEq, Repr

/-- Code-unit comparison of two strings given as char lists: the comparison
used by the default (comparator-less) JS `Array.prototype.sort`. -/
def charsLe : List Char → List Char → Bool
  | [], _ => true
  | _ :: _, [] => false
  | a :: as, b :: bs =>
    if a.toNat < b.toNat then true
    else if b.toNat < a.toNat then false
    else charsLe as bs

/-- The default JS sort order: elements converted to strings and compared
by code units. -/
def jsDefaultLe (a b : Int) : Bool :=
  charsLe (toString a).data (toString b).data

/-- Stable insertion used to model `Array.prototype.sort`. -/
def insertLe (x : Int) : List Int → List Int
  | [] => [x]
  | y :: ys => if jsDefaultLe x y && !jsDefaultLe y x then x :: y :: ys else y :: insertLe x ys

/-- The result of default-comparator `Array.prototype.sort`. -/
def jsSort : List Int → List Int
  | [] => []
  | x :: xs => insertLe x (jsSort xs)

/-- JS `splice` start-index normalisation: a negative start counts from the
end (clamped at 0), a non-negative start is clamped at the length. -/
def spliceStart (len : Nat) (start : Int) : Nat :=
  if start < 0 then ((len : Int) + start).toNat else min start.toNat len

/-- Native `Array.prototype` semantics of each mutating method: the
mutated array and the JS return value. -/
def nativeRun : ArrOp → List Int → List Int × RVal
  | .push xs, l => (l ++ xs, .num (l.length + xs.length))
  | .pop, l => (l.dropLast, .elem l.getLast?)
  | .shift, l => (l.tail, .elem l.head?)
  | .unshift xs, l => (xs ++ l, .num (xs.length + l.length))
  | .splice0, l => (l, .list [])
  | .splice1 s, l =>
    let i := spliceStart l.length s
    (l.take i, .list (l.drop i))
  | .spliceN s d items, l =>
    let i := spliceStart l.length s
    let dc := min d.toNat (l.length - i)
    (l.take i ++ items ++ l.drop (i + dc), .list ((l.drop i).take dc))
  | .reverse, l => (l.reverse, .list l.reverse)
  | .sort, l => (jsSort l, .list (jsSort l))

/-- State of one array cell wired by `defineObservableArray`: the backing
array contents (the exposed array and the cell's underlying array are the
same object after the setter ran), counters of `beforeChange` and `change`
notifications fired by the cell, the per-cell `insideObsArray` flag, and
whether the cell currently has a change subscriber that raises when
notified (modelling `valueHasMutated` propagating a subscriber's
exception). -/
structure ACell where
  data : List Int
  before : Nat
  changes : Nat
  inside : Bool
  raiseOnChange : Bool
  deriving DecidableEq, Repr

/-- Cell state immediately after a plain array `A` was assigned to the
property: contents `A`, no notifications counted yet, flag clear. -/
def freshACell (A : List Int) : ACell :=
  { data := A, before := 0, changes := 0, inside := false, raiseOnChange := false }

/-- `ko.observableArray.fn[op]` (mode `true`) and the patched exposed-array
method installed by `patchArrayMethods` (mode `false`), dist lines 241-253.

Mode `true` is the knockout primitive at its interface boundary:
`valueWillMutate()`, then `underlyingArray[op]` — which is the patched own
method of the exposed array — then `valueHasMutated()`, which fires exactly
one change notification and propagates a subscriber exception.

Mode `false` is the patched method: if `insideObsArray` is set it falls
through to `ArrayPrototype[op]`; otherwise it sets the flag, routes the
call through the cell, and clears the flag.  As in the source there is no
`try`/`finally`: a raise propagates without clearing the flag. -/
def arrayCall : Nat → Bool → ArrOp → ACell → ACell × CallRes
  | 0, _, _, s => (s, .fuelOut)
  | fuel + 1, true, op, s =>
    let s1 : ACell := { s with before := s.before + 1 }
    match arrayCall fuel false op s1 with
    | (s2, .ok r) =>
      let s3 : ACell := { s2 with changes := s2.changes + 1 }
      (s3, if s3.raiseOnChange then .raised else .ok r)
    | e => e
  | fuel + 1, false, op, s =>
    if s.inside then
      let p := nativeRun op s.data
      ({ s with data := p.1 }, .ok p.2)
    else
      match arrayCall fuel true op { s with inside := true } with
      | (s2, .ok r) => ({ s2 with inside := false }, .ok r)
      | e => e

/-- The shallow `set` override (dist lines 362-366):
`return obsArray.splice(index, 1, newItem)[0]` — note that unlike the
patched methods it calls the cell's `splice` without first setting
`insideObsArray`. -/
def setMethod (fuel : Nat) (index newItem : Int) (s : ACell) : ACell × CallRes :=
  match arrayCall fuel true (.spliceN index 1 [newItem]) s with
  | (s', .ok (.list removed)) => (s', .ok (.elem removed.head?))
  | (s', .ok r) => (s', .ok r)
  | e => e

/-! ### Section B: deep mode (dist lines 137-176 and 263-351) -/

/-- A JS value as classified by `prepareDeepValue`: a primitive, `null`, a
function/class instance (an object whose prototype is not
`Object.prototype`), a plain record, or an array.  The `patched` flag of
records and arrays models the presence of the own `PATCHED_KEY` marker. -/
inductive Val where
  | primV (n : Int)
  | jsNull
  | instV
  | recV (fields : List (String × Val)) (patched : Bool)
  | arrV (items : List Val) (patched : Bool)

mutual

/-- Structural equality of two `Val`s, modelling JS strict equality at the
places the engine uses it (`indexOf` inside `ko.observableArray.replace`). -/
def valBeq : Val → Val → Bool
  | .primV a, .primV b => a == b
  | .jsNull, .jsNull => true
  | .instV, .instV => true
  | .recV f p, .recV g q => p == q && valFieldsBeq f g
  | .arrV xs p, .arrV ys q => p == q && valListBeq xs ys
  | _, _ => false

/-- Equality of record field lists. -/
def valFieldsBeq : List (String × Val) → List (String × Val) → Bool
  | [], [] => true
  | (k, v) :: f, (k', v') :: g => k == k' && valBeq v v' && valFieldsBeq f g
  | _, _ => false

/-- Equality of element lists. -/
def valListBeq : List Val → List Val → Bool
  | [], [] => true
  | v :: xs, v' :: ys => valBeq v v' && valListBeq xs ys
  | _, _ => false

end

mutual

/-- `prepareDeepValue` (dist lines 137-158): arrays and `null` are returned
as-is, plain objects go through `prepareDeepObject`, everything else
(primitives, functions, class instances) is returned as-is.  The
`constructor`/prototype shape tests of the source are reflected in the
`Val` classification itself. -/
def prepareDeepValue : Val → Val
  | .primV n => .primV n
  | .jsNull => .jsNull
  | .instV => .instV
  | .arrV items p => .arrV items p
  | .recV fields p =>
    if p then .recV fields p
    else .recV (prepareDeepFields fields) true

/-- The `objectForEach` walk of `prepareDeepObject` (dist lines 159-176):
array-valued own properties go through `defineObservableArray` with
`deep = true` (whose setter maps `prepareDeepValue` over the elements and
marks the array), all other own properties go through
`defineObservableProperty` with `deep = true` (which stores
`prepareDeepValue` of the value). -/
def prepareDeepFields : List (String × Val) → List (String × Val)
  | [] => []
  | (k, .arrV items _) :: rest =>
    (k, .arrV (prepareDeepItems items) true) :: prepareDeepFields rest
  | (k, v) :: rest => (k, prepareDeepValue v) :: prepareDeepFields rest

/-- The element loop of the deep `defineObservableArray` setter
(dist lines 222-227): `newValue[i] = prepareDeepValue(newValue[i])`. -/
def prepareDeepItems : List Val → List Val
  | [] => []
  | v :: rest => prepareDeepValue v :: prepareDeepItems rest

end

/-- State of one deep array cell: backing contents, notification counters,
and the `insideObsArray` flag. -/
structure DCell where
  data : List Val
  before : Nat
  changes : Nat
  inside : Bool

/-- Deep cell state immediately after wiring, with prepared contents. -/
def freshDCell (A : List Val) : DCell :=
  { data := A, before := 0, changes := 0, inside := false }

/-- Argument shapes of a JS `splice` call, keeping the JS arity visible:
`a0` = `splice()`, `a1 s` = `splice(s)`, `aN s d items` =
`splice(s, d, ...items)` (arity `2 + items.length`). -/
inductive DSpliceArgs where
  | a0
  | a1 (start : Int)
  | aN (start delCount : Int) (items : List Val)

/-- The three element-inserting methods that deep mode overrides with
element preparation (dist lines 264-324). -/
inductive DOp where
  | dpush (xs : List Val)
  | dunshift (xs : List Val)
  | dsplice (a : DSpliceArgs)

/-- Return value of a deep array call. -/
inductive DRVal where
  | num (n : Nat)
  | listv (l : List Val)

/-- Result of a deep call (fuel exhaustion is never reached at the bounds
used below). -/
inductive DRes where
  | ok (r : DRVal)
  | fuelOut

/-- Native `Array.prototype.splice` semantics over `Val` elements. -/
def dSpliceNative (a : DSpliceArgs) (l : List Val) : List Val × List Val :=
  match a with
  | .a0 => (l, [])
  | .a1 s =>
    let i := spliceStart l.length s
    (l.take i, l.drop i)
  | .aN s d items =>
    let i := spliceStart l.length s
    let dc := min d.toNat (l.length - i)
    (l.take i ++ items ++ l.drop (i + dc), (l.drop i).take dc)

/-- Native `Array.prototype` semantics of the deep ops. -/
def dNativeRun : DOp → List Val → List Val × DRVal
  | .dpush xs, l => (l ++ xs, .num (l.length + xs.length))
  | .dunshift xs, l => (xs ++ l, .num (xs.length + l.length))
  | .dsplice a, l =>
    let p := dSpliceNative a l
    (p.1, .listv p.2)

/-- `ko.observableArray.fn[op]` (mode `true`) and the deep overrides of
`push`/`unshift`/`splice` (mode `false`, dist lines 264-324).

The deep `push`/`unshift` overrides map `prepareDeepValue` over the
argument list before routing the call through the cell.  The deep `splice`
override dispatches on `arguments.length`: with 0-2 arguments it passes
them through; with 3 arguments it prepares the single inserted item; in
the default branch (2 or more inserted items) it copies the arguments into
`args` and prepares `args[2..]`, but then applies the **original**
`arguments` to `obsArray.splice` (dist line 317), so the prepared copy is
discarded and the inserted items enter the backing array unprepared. -/
def dArrayCall : Nat → Bool → DOp → DCell → DCell × DRes
  | 0, _, _, s => (s, .fuelOut)
  | fuel + 1, true, op, s =>
    let s1 : DCell := { s with before := s.before + 1 }
    match dArrayCall fuel false op s1 with
    | (s2, .ok r) => ({ s2 with changes := s2.changes + 1 }, .ok r)
    | e => e
  | fuel + 1, false, op, s =>
    if s.inside then
      let p := dNativeRun op s.data
      ({ s with data := p.1 }, .ok p.2)
    else
      let routed : DOp :=
        match op with
        | .dpush xs => .dpush (xs.map prepareDeepValue)
        | .dunshift xs => .dunshift (xs.map prepareDeepValue)
        | .dsplice .a0 => .dsplice .a0
        | .dsplice (.a1 st) => .dsplice (.a1 st)
        | .dsplice (.aN st d []) => .dsplice (.aN st d [])
        | .dsplice (.aN st d [x]) => .dsplice (.aN st d [prepareDeepValue x])
        | .dsplice (.aN st d items) =>
          let _args := items.map prepareDeepValue
          .dsplice (.aN st d items)
      match dArrayCall fuel true routed { s with inside := true } with
      | (s2, .ok r) => ({ s2 with inside := false }, .ok r)
      | e => e

/-- `ko.observableArray.fn.replace` at its interface boundary: locate the
old item by strict equality; if present, replace it in place with one
`valueWillMutate`/`valueHasMutated` bracket. -/
def koReplace (oldItem newItem : Val) (s : DCell) : DCell :=
  match s.data.findIdx? (fun v => valBeq v oldItem) with
  | some i =>
    { s with data := s.data.set i newItem,
             before := s.before + 1, changes := s.changes + 1 }
  | none => s

/-- The deep `replace` override (dist lines 325-332): sets `insideObsArray`,
calls `obsArray.replace(oldItem, prepareDeepValue(newItem))`, clears the
flag. -/
def deepReplaceMethod (oldItem newItem : Val) (s : DCell) : DCell :=
  let s1 : DCell := { s with inside := true }
  let s2 := koReplace oldItem (prepareDeepValue newItem) s1
  { s2 with inside := false }

/-- The deep `mutate` override (dist lines 333-345): exposes the live
backing array to the mutator inside a `valueWillMutate`/`valueHasMutated`
bracket, then re-prepares every element because direct index assignment
bypasses interception. -/
def deepMutateMethod (mutator : List Val → List Val) (s : DCell) : DCell :=
  let mutated := mutator s.data
  { s with data := mutated.map prepareDeepValue,
           before := s.before + 1, changes := s.changes + 1 }

/-- The deep `set` override (dist lines 346-350):
`return obsArray.splice(index, 1, prepareDeepValue(newItem))[0]` — like the
shallow `set` it calls the cell's `splice` without setting
`insideObsArray`. -/
def deepSetMethod (fuel : Nat) (index : Int) (newItem : Val) (s : DCell) :
    DCell × Option Val :=
  match dArrayCall fuel true (.dsplice (.aN index 1 [prepareDeepValue newItem])) s with
  | (s', .ok (.listv removed)) => (s', removed.head?)
  | (s', _) => (s', none)

mutual

/-- The spec's notion of a fully reactive ("materialized") value, stated
from the spec's own words for comparison with what the code produces: a
plain record is materialized when it carries the marker and all its field
values are materialized; an array is materialized when it carries the
marker and all its elements are materialized; primitives, `null`, and
foreign objects have nothing to materialize. -/
def specMaterialized : Val → Bool
  | .primV _ => true
  | .jsNull => true
  | .instV => true
  | .recV fields p => p && specMaterializedFields fields
  | .arrV items p => p && specMaterializedList items

/-- All field values of a record are materialized (spec-side notion). -/
def specMaterializedFields : List (String × Val) → Bool
  | [] => true
  | (_, v) :: rest => specMaterialized v && specMaterializedFields rest

/-- All elements of a list are materialized (spec-side notion). -/
def specMaterializedList : List Val → Bool
  | [] => true
  | v :: rest => specMaterialized v && specMaterializedList rest

end

/-! ### Section C: the array property setter (dist lines 201-240) -/

/-- Pointwise update of a total map. -/
def updAt {α : Type} (f : Nat → α) (i : Nat) (v : α) : Nat → α :=
  fun j => if j = i then v else f j

/-- A heap of JS array objects plus the array-reactive properties wired to
them, modelling reference identity: `arrs id = (contents, marked)` where
`marked` is the own `PATCHED_KEY` marker (the method overrides travel with
it: they are installed when it is set and deleted when it is deleted);
`cells p` is the array id currently stored in property `p`'s backing cell;
ids `≥ fresh` are unallocated. -/
structure ArrSys where
  fresh : Nat
  arrs : Nat → List Int × Bool
  cells : Nat → Option Nat

/-- The `setter` of `defineObservableArray` (dist lines 201-240), shallow
mode (the deep element-preparation step does not touch the ownership
bookkeeping modelled here).  If the incoming value is the cell's current
value (`lastValue !== newValue` fails) all bookkeeping is skipped;
otherwise the previously stored array, if marked, is stripped of its
marker and method overrides; an incoming array that is already marked is
replaced by a fresh unmarked clone (`newValue.slice()`); the final array
is marked, patched, and written to the cell. -/
def observableArraySetter (s : ArrSys) (p : Nat) (newId : Nat) : ArrSys :=
  if s.cells p = some newId then
    { s with cells := updAt s.cells p (some newId) }
  else
    let s1 : ArrSys :=
      match s.cells p with
      | some oldId =>
        if (s.arrs oldId).2 then
          { s with arrs := updAt s.arrs oldId ((s.arrs oldId).1, false) }
        else s
      | none => s
    let s2 : ArrSys :=
      if (s1.arrs newId).2 then
        { s1 with fresh := s1.fresh + 1,
                  arrs := updAt s1.arrs s1.fresh ((s1.arrs newId).1, false) }
      else s1
    let finalId : Nat := if (s1.arrs newId).2 then s1.fresh else newId
    let s3 : ArrSys :=
      { s2 with arrs := updAt s2.arrs finalId ((s2.arrs finalId).1, true) }
    { s3 with cells := updAt s3.cells p (some finalId) }

/-- Well-formedness of the ownership state: distinct properties never hold
the same array, and every held array is an allocated, marked exposed
array. -/
def GoodSys (s : ArrSys) : Prop :=
  (∀ p q i j, p ≠ q → s.cells p = some i → s.cells q = some j → i ≠ j) ∧
  (∀ p i, s.cells p = some i → i < s.fresh ∧ (s.arrs i).2 = true)

/-- Concrete one-property state used for the self-assignment counterexample:
property 0 holds the marked array 0. -/
def sysSelf : ArrSys :=
  { fresh := 1,
    arrs := fun i => if i = 0 then ([1, 2], true) else ([], false),
    cells := fun p => if p = 0 then some 0 else none }

/-- Concrete initial state used as witness input: one unmarked plain array
(id 0) allocated, no property wired yet. -/
def sysInit : ArrSys :=
  { fresh := 1,
    arrs := fun i => if i = 0 then ([5], false) else ([], false),
    cells := fun _ => none }

/-! ### Section D: `{once: true}` subscriptions (ts lines 341-346, 357-364) -/

/-- State of one `{once: true}` subscription: whether the handle is still
active, how many times the user callback body ran, and whether every run
of the callback body so far observed its own handle already disposed
(`sawDisposed` starts `true` and is and-accumulated at each run). -/
structure OnceSub where
  active : Bool
  runs : Nat
  sawDisposed : Bool

/-- A fresh once-subscription handle. -/
def onceInit : OnceSub :=
  { active := true, runs := 0, sawDisposed := true }

/-- One firing of the observed source.  The external subscribable invokes
the registered handler only while the subscription is active (`dispose`
removes it).  The registered handler is the `once` wrapper of `subscribe`
(both the event overload, ts lines 341-346, and the dependency overload,
ts lines 357-361, build the same wrapper): it first calls
`subscription.dispose()` and then runs the user callback body, which here
records whether it saw its own handle still active. -/
def onceFire (s : OnceSub) : OnceSub :=
  if s.active then
    let disposed : OnceSub := { s with active := false }
    { disposed with
      runs := disposed.runs + 1,
      sawDisposed := disposed.sawDisposed && !disposed.active }
  else s

/-! ### Section E: the `"arrayChange"` branch of `subscribe`
    (ts lines 366-373, dist lines 569-577) -/

/-- `Array.isArray` over the `Val` classification. -/
def isArrayVal : Val → Bool
  | .arrV _ _ => true
  | _ => false

/-- `hasOwnProperty(value, PATCHED_KEY)`: records and arrays can both carry
the materialization marker (deep mode marks plain records too). -/
def hasPatchedKey : Val → Bool
  | .recV _ p => p
  | .arrV _ p => p
  | _ => false

/-- What a dependency-expression subscription produced: how many times the
dependency expression itself was invoked directly, whether a hidden
intermediate computed cell was created, and whether the subscription was
attached directly to the backing array cell's `arrayChange` event. -/
structure DepSubscription where
  exprEvals : Nat
  hiddenComputed : Bool
  onArrayCell : Bool

/-- The dependency-expression half of `subscribe` (ts lines 352-387),
dispatching on `options.event`.  In `"arrayChange"` mode the expression is
evaluated once; unless the result is an array carrying the `PATCHED_KEY`
marker the call throws; otherwise the handler is attached directly to the
backing array cell (`obsArray.subscribe(handler, null, "arrayChange")`)
and no hidden computed is created.  In any other mode a hidden computed
over the expression is created and subscribed instead (the expression is
then evaluated by the computed, not directly). -/
def subscribeDependency (evt : String) (value : Val) : Except String DepSubscription :=
  if evt = "arrayChange" then
    if isArrayVal value && hasPatchedKey value then
      .ok { exprEvals := 1, hiddenComputed := false, onArrayCell := true }
    else
      .error "Can not subscribe to 'arrayChange' because dependency is not an 'observableArray'"
  else
    .ok { exprEvals := 0, hiddenComputed := true, onArrayCell := false }

/-! ### Section F: extender tables (dist lines 84-111) -/

/-- The extender state of one base prototype and one subclass prototype
whose prototype chain points at the base: `heap` stores the extender
arrays by reference (`Nat` ids, entries `≥ fresh` unallocated), and each
prototype optionally has an own `EXTENDERS_KEY` dictionary mapping
property keys to array ids.  Extenders themselves are opaque and
identified by `Nat`s. -/
structure ExtSys where
  heap : Nat → List Nat
  fresh : Nat
  baseOwn : Option (List (Nat × Nat))
  subOwn : Option (List (Nat × Nat))

/-- The empty extender state: no dictionaries, nothing allocated. -/
def extEmpty : ExtSys :=
  { heap := fun _ => [], fresh := 0, baseOwn := none, subOwn := none }

/-- `prototype[EXTENDERS_KEY]` read on the base prototype. -/
def baseDictLookup (s : ExtSys) : Option (List (Nat × Nat)) :=
  s.baseOwn

/-- `prototype[EXTENDERS_KEY]` read on the subclass prototype: its own
dictionary if present, otherwise the inherited one from the base. -/
def subDictLookup (s : ExtSys) : Option (List (Nat × Nat)) :=
  match s.subOwn with
  | some d => some d
  | none => s.baseOwn

/-- The `extendObject({}, dictionary)` + per-key `extenders.slice()` clone
of `defineExtenders` (dist lines 100-105): a fresh dictionary whose every
entry points at a freshly allocated copy of the original array. -/
def cloneEntries (h : Nat → List Nat) (fr : Nat) :
    List (Nat × Nat) → (Nat → List Nat) × Nat × List (Nat × Nat)
  | [] => (h, fr, [])
  | (k, id) :: rest =>
    let h1 := updAt h fr (h id)
    let (h2, fr2, rest2) := cloneEntries h1 (fr + 1) rest
    (h2, fr2, (k, fr) :: rest2)

/-- Push an extender onto the entry for `key` of an own dictionary
(`dictionary[key] || (dictionary[key] = [])` followed by `push`,
dist lines 107-110): if the key is present the existing array is mutated
in place, otherwise a fresh array holding just the new extender is
allocated and the entry appended. -/
def pushExtender (h : Nat → List Nat) (fr : Nat) (d : List (Nat × Nat))
    (key ext : Nat) : (Nat → List Nat) × Nat × List (Nat × Nat) :=
  match d.lookup key with
  | some id => (updAt h id (h id ++ [ext]), fr, d)
  | none => (updAt h fr [ext], fr + 1, d ++ [(key, fr)])

/-- `defineExtenders` called on the base prototype (dist lines 96-111). -/
def defineExtendersBase (key ext : Nat) (s : ExtSys) : ExtSys :=
  match s.baseOwn with
  | some d =>
    let (h, fr, d') := pushExtender s.heap s.fresh d key ext
    { s with heap := h, fresh := fr, baseOwn := some d' }
  | none =>
    let (h, fr, d') := pushExtender s.heap s.fresh [] key ext
    { s with heap := h, fresh := fr, baseOwn := some d' }

/-- `defineExtenders` called on the subclass prototype (dist lines 96-111):
if the subclass has no own dictionary, the inherited dictionary is cloned
copy-on-write (dictionary object and every per-key array), and only then
is the new extender pushed. -/
def defineExtendersSub (key ext : Nat) (s : ExtSys) : ExtSys :=
  match s.subOwn with
  | some d =>
    let (h, fr, d') := pushExtender s.heap s.fresh d key ext
    { s with heap := h, fresh := fr, subOwn := some d' }
  | none =>
    let inherited := (subDictLookup s).getD []
    let (h1, fr1, cloned) := cloneEntries s.heap s.fresh inherited
    let (h2, fr2, d') := pushExtender h1 fr1 cloned key ext
    { s with heap := h2, fresh := fr2, subOwn := some d' }

/-- `applyExtenders` (dist lines 84-95) for an instance of the base class:
the ordered list of extender specifications folded onto a freshly created
cell for property `key`. -/
def appliedExtendersBase (key : Nat) (s : ExtSys) : List Nat :=
  match baseDictLookup s with
  | some d =>
    match d.lookup key with
    | some id => s.heap id
    | none => []
  | none => []

/-- `applyExtenders` for an instance of the subclass. -/
def appliedExtendersSub (key : Nat) (s : ExtSys) : List Nat :=
  match subDictLookup s with
  | some d =>
    match d.lookup key with
    | some id => s.heap id
    | none => []
  | none => []

/-! ### Section G: scalar `@observable` properties (dist lines 404-421,
    ts lines 19-32) -/

/-- The uninitialized-property error message thrown by the prototype getter
installed by `observableDecorator` (dist line 410). -/
def uninitializedMsg (key : String) : String :=
  "@observable property '" ++ key ++ "' was not initialized"

/-- Reading a declared scalar-reactive property: before the first write the
prototype getter throws the uninitialized-property error; afterwards the
installed getter returns the cell's value. -/
def readObservableProp (key : String) (cell : Option Val) : Except String Val :=
  match cell with
  | none => .error (uninitializedMsg key)
  | some v => .ok v

/-- Writing a declared scalar-reactive property (shallow): the first write
creates the cell seeded with the value (`defineObservableProperty`,
dist lines 117-136 with `deep = false`), later writes store the value in
the existing cell; in both cases the stored value is the written value. -/
def writeObservableProp (v : Val) (_cell : Option Val) : Option Val :=
  some v

/-- A sequence of writes applied to a freshly declared property. -/
def runWrites : List Val → Option Val
  | [] => none
  | v :: rest =>
    match runWrites rest with
    | none => writeObservableProp v none
    | c => writeObservableProp v c

/-! ### Section H: `unwrap` (ts lines 403-410) -/

/-- The two kinds of decorated properties `unwrap` is used with: a
reactive (`@observable`) property, whose prototype getter throws until the
first write materializes the cell, and a derived (`@computed`) property,
whose prototype getter materializes the cell on first read
(`computedDecorator`, dist lines 439-455). -/
inductive PropKind where
  | reactiveProp
  | derivedProp

/-- `unwrap(instance, key)` (ts lines 403-410): if the instance has no own
property yet, `instance[key]` is read to run the prototype getter, then
the own descriptor's getter — the underlying cell — is returned.  `state`
is the materialized cell (by id) if the property is already own;
`freshCell` is the id the next materialization would allocate.  Returns
the possibly-updated state and either the cell or the error thrown by the
prototype getter. -/
def unwrapModel (kind : PropKind) (key : String) (freshCell : Nat)
    (state : Option Nat) : Option Nat × Except String Nat :=
  match state with
  | some c => (some c, .ok c)
  | none =>
    match kind with
    | .derivedProp => (some freshCell, .ok freshCell)
    | .reactiveProp => (none, .error (uninitializedMsg key))

/-! ### Section I: default-mode dependency subscriptions
    (dist lines 579-586, ts lines 374-385) -/

/-- Knockout's default `equalityComparer` (`valuesArePrimitive`): a write
is suppressed only when the old and new values are equal *and* primitive;
object values always count as changed. -/
def valuesArePrimitive (a b : Val) : Bool :=
  valBeq a b &&
    (match a with
     | .primV _ => true
     | .jsNull => true
     | _ => false)

/-- State of one default-mode (`"change"`) dependency subscription: the
observed dependency cell's current value, the hidden computed's memoized
expression value, and the number of callback invocations delivered. -/
structure ChainState where
  depVal : Val
  exprLast : Val
  calls : Nat

/-- A write to the observed dependency cell, propagated through the hidden
computed to the subscription callback.  The dependency cell applies the
default comparer and drops the write when old and new values are equal
primitives; otherwise the hidden computed re-evaluates the expression `f`
and notifies its subscriber — always, when it was extended with
`{ notify: "always" }` (`notifyAlways = true`, the bundled generation,
dist line 579), and only when the re-evaluated value counts as changed
under the default comparer otherwise (the TypeScript generation,
ts line 375). -/
def writeDependency (notifyAlways : Bool) (f : Val → Val) (s : ChainState)
    (w : Val) : ChainState :=
  if valuesArePrimitive s.depVal w then s
  else
    let v := f w
    if notifyAlways || !valuesArePrimitive s.exprLast v then
      { depVal := w, exprLast := v, calls := s.calls + 1 }
    else
      { depVal := w, exprLast := v, calls := s.calls }

/-- The externally observable behavior of `set(i, x)` on a plain copy of
the array, as the claims describe it: a single-element `splice` (native
semantics) whose removed head is returned. -/
def jsSetPlain (A : List Int) (i x : Int) : List Int × Option Int :=
  match nativeRun (.spliceN i 1 [x]) A with
  | (d, .list removed) => (d, removed.head?)
  | (d, _) => (d, none)

/-! ## Theorems -/

/-- Once a `{once: true}` handle is inactive, firing the source does
nothing. -/
theorem onceFire_inactive (s : OnceSub) (h : s.active = false) : onceFire s = s := by
  unfold onceFire
  simp [h]

/-- Iterating the source on an inactive handle is the identity. -/
theorem onceFire_iterate_inactive (s : OnceSub) (h : s.active = false) (n : Nat) :
    onceFire^[n] s = s := by
  induction n with
  | zero => rfl
  | succ m ih => rw [Function.iterate_succ_apply, onceFire_inactive s h, ih]

/-- C5: for a `{once: true}` subscription (to an event or to a dependency
expression), however many times the observed source fires, the callback
body runs at most once, every run observes its own handle already
disposed, and after at least one firing it has run exactly once. -/
theorem C5_once_subscription (n : Nat) :
    (onceFire^[n] onceInit).runs ≤ 1 ∧
    (onceFire^[n] onceInit).sawDisposed = true ∧
    (onceFire^[n + 1] onceInit).runs = 1 := by
  have hfired : onceFire onceInit = { active := false, runs := 1, sawDisposed := true } := rfl
  cases n with
  | zero =>
    refine ⟨by decide, rfl, ?_⟩
    rw [Function.iterate_one, hfired]
  | succ m =>
    have h1 : onceFire^[m + 1] onceInit =
        { active := false, runs := 1, sawDisposed := true } := by
      rw [Function.iterate_succ_apply, hfired, onceFire_iterate_inactive _ rfl]
    have h2 : onceFire^[m + 1 + 1] onceInit =
        { active := false, runs := 1, sawDisposed := true } := by
      rw [Function.iterate_succ_apply, hfired, onceFire_iterate_inactive _ rfl]
    rw [h1, h2]
    exact ⟨by decide, rfl, rfl⟩

/-- C6: an `"arrayChange"` subscription evaluates the dependency expression
once and throws exactly when the resulting value is not an array carrying
the materialization marker; on a marked array it subscribes directly to
the backing array cell's structural-diff event and creates no hidden
computed. -/
theorem C6_array_change_subscription (v : Val) :
    ((∃ e, subscribeDependency "arrayChange" v = .error e) ↔
      ¬ (isArrayVal v = true ∧ hasPatchedKey v = true)) ∧
    (∀ r, subscribeDependency "arrayChange" v = .ok r →
      r.exprEvals = 1 ∧ r.hiddenComputed = false ∧ r.onArrayCell = true) := by
  constructor
  · cases hA : isArrayVal v <;> cases hP : hasPatchedKey v <;>
      simp [subscribeDependency, hA, hP]
  · intro r hr
    cases hA : isArrayVal v <;> cases hP : hasPatchedKey v
    · simp [subscribeDependency, hA, hP] at hr
    · simp [subscribeDependency, hA, hP] at hr
    · simp [subscribeDependency, hA, hP] at hr
    · simp [subscribeDependency, hA, hP] at hr
      simp [← hr]

/-- C6 witness: instantiated at a marked exposed array. -/
theorem C6_array_change_subscription_witness :
    subscribeDependency "arrayChange" (.arrV [] true) =
      .ok { exprEvals := 1, hiddenComputed := false, onArrayCell := true } ∧
    ({ exprEvals := 1, hiddenComputed := false, onArrayCell := true } : DepSubscription).exprEvals = 1 ∧
    ({ exprEvals := 1, hiddenComputed := false, onArrayCell := true } : DepSubscription).hiddenComputed = false := by
  refine ⟨rfl, ?_, ?_⟩
  · exact ((C6_array_change_subscription (.arrV [] true)).2 _ rfl).1
  · exact ((C6_array_change_subscription (.arrV [] true)).2 _ rfl).2.1

/-- C8: reading a declared scalar-reactive property before any write throws
the uninitialized-property error, whose message names the property; after
writing `v` a read returns `v`; the error occurs exactly when no write has
happened. -/
theorem C8_scalar_read_write (key : String) (v : Val) (cell : Option Val)
    (writes : List Val) :
    readObservableProp key (writeObservableProp v cell) = .ok v ∧
    readObservableProp key none = .error (uninitializedMsg key) ∧
    ((∃ e, readObservableProp key (runWrites writes) = .error e) ↔ writes = []) ∧
    (∃ a b, uninitializedMsg key = a ++ key ++ b) := by
  refine ⟨rfl, rfl, ?_, ⟨"@observable property '", "' was not initialized", rfl⟩⟩
  cases writes with
  | nil => simp [runWrites, readObservableProp]
  | cons w rest =>
    have : runWrites (w :: rest) = some w := by
      unfold runWrites
      cases runWrites rest <;> rfl
    simp [this, readObservableProp]

/-- C8 witness: a concrete property, value, and write list. -/
theorem C8_scalar_read_write_witness :
    readObservableProp "name" (writeObservableProp (.primV 7) none) = .ok (.primV 7) ∧
    readObservableProp "name" none = .error (uninitializedMsg "name") :=
  ⟨(C8_scalar_read_write "name" (.primV 7) none []).1,
   (C8_scalar_read_write "name" (.primV 7) none []).2.1⟩

/-- C9 counterexample: `unwrap` on a declared but never-written reactive
property runs the prototype getter, which throws the
uninitialized-property error instead of materializing — refuting "forcing
materialization first (without raising)". -/
theorem C9_unwrap_uninitialized_raises :
    unwrapModel .reactiveProp "items" 0 none =
      (none, .error (uninitializedMsg "items")) := rfl

/-- C9 (amended): `unwrap` returns the raw underlying cell of an already
materialized property; on a never-materialized *derived* property it
forces materialization without raising and returns the fresh cell; on a
never-written *reactive* property the forced prototype read raises the
uninitialized-property error. -/
theorem C9_unwrap_materialization (kind : PropKind) (key : String)
    (freshCell c : Nat) :
    unwrapModel kind key freshCell (some c) = (some c, .ok c) ∧
    unwrapModel .derivedProp key freshCell none = (some freshCell, .ok freshCell) ∧
    unwrapModel .reactiveProp key freshCell none =
      (none, .error (uninitializedMsg key)) := by
  refine ⟨?_, rfl, rfl⟩
  cases kind <;> rfl

/-- C10 counterexample: in the bundled generation (hidden computed extended
with `{ notify: "always" }`), a write of the dependency's current primitive
value is already suppressed by the dependency cell itself, so the callback
is *not* invoked on that write — refuting "invoked on every write to the
observed dependency". -/
theorem C10_identity_write_no_callback :
    (writeDependency true (fun v => v)
      { depVal := .primV 5, exprLast := .primV 5, calls := 0 } (.primV 5)).calls = 0 := rfl

/-- C10 (amended): writes the dependency cell suppresses (equal primitive
values) invoke the callback in neither generation; among propagated
writes, the bundled generation's `{ notify: "always" }` computed invokes
the callback even when the re-evaluated expression value is unchanged,
while the TypeScript generation suppresses the callback exactly when the
re-evaluated value counts as an unchanged primitive under the default
comparer. -/
theorem C10_change_subscription_notify (f : Val → Val) (s : ChainState) (w : Val) :
    (valuesArePrimitive s.depVal w = true →
      writeDependency true f s w = s ∧ writeDependency false f s w = s) ∧
    (valuesArePrimitive s.depVal w = false →
      (writeDependency true f s w).calls = s.calls + 1) ∧
    (valuesArePrimitive s.depVal w = false →
      valuesArePrimitive s.exprLast (f w) = true →
      (writeDependency false f s w).calls = s.calls) ∧
    (valuesArePrimitive s.depVal w = false →
      valuesArePrimitive s.exprLast (f w) = false →
      (writeDependency false f s w).calls = s.calls + 1) := by
  refine ⟨fun h => ?_, fun h => ?_, fun h h' => ?_, fun h h' => ?_⟩
  · simp [writeDependency, h]
  · simp [writeDependency, h]
  · simp [writeDependency, h, h']
  · simp [writeDependency, h, h']

/-- C10 witness: a dependency-changing write whose re-evaluated expression
value is unchanged: the bundled generation invokes the callback, the
TypeScript generation does not. -/
theorem C10_change_subscription_notify_witness :
    (writeDependency true (fun _ => .primV 1)
      { depVal := .primV 5, exprLast := .primV 1, calls := 0 } (.primV 6)).calls = 1 ∧
    (writeDependency false (fun _ => .primV 1)
      { depVal := .primV 5, exprLast := .primV 1, calls := 0 } (.primV 6)).calls = 0 := by
  have h := C10_change_subscription_notify (fun _ => .primV 1)
    { depVal := .primV 5, exprLast := .primV 1, calls := 0 } (.primV 6)
  exact ⟨h.2.1 rfl, h.2.2.1 rfl rfl⟩

/-- C7: after registering extender `e1` on key `key` of the base prototype
and then extender `e2` on the same key of a subclass prototype, cells for
subclass instances receive both extenders in registration order (base's
first), cells for base-class instances — including ones created after the
subclass registration — receive only the base extender, and the subclass
registration mutates neither the base prototype's extender dictionary nor
any extender array that existed before it. -/
theorem C7_extender_inheritance (key e1 e2 : Nat) :
    appliedExtendersSub key (defineExtendersSub key e2 (defineExtendersBase key e1 extEmpty)) = [e1, e2] ∧
    appliedExtendersBase key (defineExtendersSub key e2 (defineExtendersBase key e1 extEmpty)) = [e1] ∧
    (defineExtendersSub key e2 (defineExtendersBase key e1 extEmpty)).baseOwn =
      (defineExtendersBase key e1 extEmpty).baseOwn ∧
    (∀ id, id < (defineExtendersBase key e1 extEmpty).fresh →
      (defineExtendersSub key e2 (defineExtendersBase key e1 extEmpty)).heap id =
        (defineExtendersBase key e1 extEmpty).heap id) := by
  refine ⟨?_, ?_, ?_, ?_⟩
  · simp [appliedExtendersSub, defineExtendersSub, defineExtendersBase, extEmpty,
      pushExtender, cloneEntries, subDictLookup, baseDictLookup, updAt, List.lookup]
  · simp [appliedExtendersBase, defineExtendersSub, defineExtendersBase, extEmpty,
      pushExtender, cloneEntries, subDictLookup, baseDictLookup, updAt, List.lookup]
  · simp [defineExtendersSub, defineExtendersBase, extEmpty,
      pushExtender, cloneEntries, subDictLookup, updAt, List.lookup]
  · intro id hid
    have h0 : id = 0 := by
      simp [defineExtendersBase, extEmpty, pushExtender, List.lookup] at hid
      omega
    subst h0
    simp [defineExtendersSub, defineExtendersBase, extEmpty,
      pushExtender, cloneEntries, subDictLookup, updAt, List.lookup]

/-- C7 witness: concrete key and extenders, with the heap-preservation
conjunct discharged at array id 0. -/
theorem C7_extender_inheritance_witness :
    appliedExtendersSub 0 (defineExtendersSub 0 2 (defineExtendersBase 0 1 extEmpty)) = [1, 2] ∧
    (defineExtendersSub 0 2 (defineExtendersBase 0 1 extEmpty)).heap 0 =
      (defineExtendersBase 0 1 extEmpty).heap 0 :=
  ⟨(C7_extender_inheritance 0 1 2).1,
   (C7_extender_inheritance 0 1 2).2.2.2 0 (by decide)⟩

/-- C1 counterexample: on the exposed array for `[1, 2, 3]`, `set(1, 5)`
produces the correct result and sequence but fires the backing cell's
change notification twice, not once: the `set` override calls
`obsArray.splice` without setting `insideObsArray`, so the cell's `splice`
re-enters the patched method, which routes through the cell a second
time. -/
theorem C1_set_double_notification :
    (setMethod 4 1 5 (freshACell [1, 2, 3])).1.changes = 2 ∧
    ¬ (setMethod 4 1 5 (freshACell [1, 2, 3])).1.changes = 1 ∧
    (setMethod 4 1 5 (freshACell [1, 2, 3])).1.data = [1, 5, 3] ∧
    (setMethod 4 1 5 (freshACell [1, 2, 3])).2 = .ok (.elem (some 2)) := by
  decide

/-- C1 (amended): for every plain array `A` assigned to an array-reactive
property, each call of `push`/`pop`/`shift`/`unshift`/`splice`/`reverse`/
`sort` on the resulting exposed array produces the same externally
observable result (return value and resulting sequence) as the same call
on a plain copy of `A` and fires the backing cell's change notification
exactly once per call; `set` also produces the same result and sequence
as on a plain copy but fires the change notification twice per call. -/
theorem C1_exposed_array_calls :
    (∀ (op : ArrOp) (A : List Int),
      arrayCall 3 false op (freshACell A) =
        ({ data := (nativeRun op A).1, before := 1, changes := 1,
           inside := false, raiseOnChange := false },
         .ok (nativeRun op A).2)) ∧
    (∀ (i x : Int) (A : List Int),
      setMethod 4 i x (freshACell A) =
        ({ data := (jsSetPlain A i x).1, before := 2, changes := 2,
           inside := false, raiseOnChange := false },
         .ok (.elem (jsSetPlain A i x).2))) :=
  ⟨fun _ _ => rfl, fun _ _ _ => rfl⟩

/-- C3 counterexample: when a change subscriber raises during an
intercepted `push`, the exception propagates out of the patched method
with `insideObsArray` still set — the flag is not cleared on the error
path, so the array is left in "always native" mode. -/
theorem C3_raise_wedges_flag :
    (arrayCall 3 false (.push [1]) { freshACell [] with raiseOnChange := true }).1.inside = true ∧
    (arrayCall 3 false (.push [1]) { freshACell [] with raiseOnChange := true }).2 = .raised := by
  decide

/-- C3 (amended): an intercepted call that completes normally leaves the
re-entrancy flag clear; an overridden method invoked while the flag is set
falls through to the native array method without touching the cell or its
notifications; but when the cell's change subscriber raises during the
intercepted call, the exception propagates with the flag left set. -/
theorem C3_reentrancy_flag :
    (∀ (op : ArrOp) (A : List Int),
      (arrayCall 3 false op (freshACell A)).1.inside = false) ∧
    (∀ (op : ArrOp) (s : ACell) (fuel : Nat), s.inside = true →
      arrayCall (fuel + 1) false op s =
        ({ s with data := (nativeRun op s.data).1 }, .ok (nativeRun op s.data).2)) ∧
    (∀ (op : ArrOp) (A : List Int),
      arrayCall 3 false op { freshACell A with raiseOnChange := true } =
        ({ data := (nativeRun op A).1, before := 1, changes := 1,
           inside := true, raiseOnChange := true }, .raised)) := by
  refine ⟨fun _ _ => rfl, fun op s fuel h => ?_, fun _ _ => rfl⟩
  unfold arrayCall
  simp [h]

/-- C3 witness: the native fall-through conjunct instantiated at a cell
whose flag is set: `pop` runs natively, fires no notifications, and leaves
the flag as it was. -/
theorem C3_reentrancy_flag_witness :
    arrayCall 1 false .pop
        { data := [1, 2], before := 0, changes := 0, inside := true, raiseOnChange := false } =
      ({ data := [1], before := 0, changes := 0, inside := true, raiseOnChange := false },
       .ok (.elem (some 2))) :=
  C3_reentrancy_flag.2.1 .pop
    { data := [1, 2], before := 0, changes := 0, inside := true, raiseOnChange := false } 0 rfl

/-- `prepareDeepValue` is idempotent: a prepared plain record comes out
marked, and every other shape is a fixed point already. -/
theorem prepareDeepValue_idem (v : Val) :
    prepareDeepValue (prepareDeepValue v) = prepareDeepValue v := by
  cases v with
  | primV n => rfl
  | jsNull => rfl
  | instV => rfl
  | arrV items p => rfl
  | recV fields p => cases p with
    | true => rfl
    | false => rfl

/-- C2 counterexample: on a deep exposed array, `splice(0, 0, recA, recB)`
with two inserted plain records inserts them unmaterialized (the override
prepares a copied `args` array but applies the original `arguments`), and
`push` of an array element leaves it unmaterialized (`prepareDeepValue`
returns arrays as-is) — refuting the claim for `splice` with two or more
inserted items and for inserted arrays. -/
theorem C2_bulk_splice_and_array_unprepared :
    (dArrayCall 4 false
        (.dsplice (.aN 0 0 [.recV [("a", .primV 1)] false, .recV [("b", .primV 2)] false]))
        (freshDCell [])).1.data =
      [.recV [("a", .primV 1)] false, .recV [("b", .primV 2)] false] ∧
    specMaterializedList (dArrayCall 4 false
        (.dsplice (.aN 0 0 [.recV [("a", .primV 1)] false, .recV [("b", .primV 2)] false]))
        (freshDCell [])).1.data = false ∧
    (dArrayCall 4 false (.dpush [.arrV [] false]) (freshDCell [])).1.data = [.arrV [] false] ∧
    specMaterializedList (dArrayCall 4 false (.dpush [.arrV [] false]) (freshDCell [])).1.data = false :=
  ⟨rfl, rfl, rfl, rfl⟩

/-- C2 (amended): in deep mode, `push`, `unshift`, `splice` with exactly
one inserted item, `replace`, `set`, and the elements left in place by a
`mutate` callback all route elements through `prepareDeepValue`, which
marks a plain record (recursively materializing its properties) and
returns arrays — as well as primitives, `null`, and class instances —
unchanged; `splice` with two or more inserted items inserts them without
any materialization. -/
theorem C2_deep_insert_materialization :
    (∀ (xs d : List Val) (b c : Nat),
      dArrayCall 3 false (.dpush xs) { data := d, before := b, changes := c, inside := false } =
        ({ data := d ++ xs.map prepareDeepValue, before := b + 1, changes := c + 1, inside := false },
         .ok (.num (d.length + (xs.map prepareDeepValue).length)))) ∧
    (∀ (xs d : List Val) (b c : Nat),
      dArrayCall 3 false (.dunshift xs) { data := d, before := b, changes := c, inside := false } =
        ({ data := xs.map prepareDeepValue ++ d, before := b + 1, changes := c + 1, inside := false },
         .ok (.num ((xs.map prepareDeepValue).length + d.length)))) ∧
    (∀ (st dl : Int) (x : Val) (d : List Val) (b c : Nat),
      dArrayCall 3 false (.dsplice (.aN st dl [x])) { data := d, before := b, changes := c, inside := false } =
        ({ data := (dSpliceNative (.aN st dl [prepareDeepValue x]) d).1,
           before := b + 1, changes := c + 1, inside := false },
         .ok (.listv (dSpliceNative (.aN st dl [prepareDeepValue x]) d).2))) ∧
    (∀ (st dl : Int) (x y : Val) (rest d : List Val) (b c : Nat),
      dArrayCall 3 false (.dsplice (.aN st dl (x :: y :: rest))) { data := d, before := b, changes := c, inside := false } =
        ({ data := (dSpliceNative (.aN st dl (x :: y :: rest)) d).1,
           before := b + 1, changes := c + 1, inside := false },
         .ok (.listv (dSpliceNative (.aN st dl (x :: y :: rest)) d).2))) ∧
    (∀ (oldItem newItem : Val) (s : DCell),
      (deepReplaceMethod oldItem newItem s).data =
        (match s.data.findIdx? (fun v => valBeq v oldItem) with
         | some i => s.data.set i (prepareDeepValue newItem)
         | none => s.data) ∧
      (deepReplaceMethod oldItem newItem s).inside = false) ∧
    (∀ (i : Int) (x : Val) (d : List Val) (b c : Nat),
      deepSetMethod 4 i x { data := d, before := b, changes := c, inside := false } =
        ({ data := (dSpliceNative (.aN i 1 [prepareDeepValue x]) d).1,
           before := b + 2, changes := c + 2, inside := false },
         (dSpliceNative (.aN i 1 [prepareDeepValue x]) d).2.head?)) ∧
    (∀ (mutator : List Val → List Val) (s : DCell),
      deepMutateMethod mutator s =
        { data := (mutator s.data).map prepareDeepValue, before := s.before + 1,
          changes := s.changes + 1, inside := s.inside }) ∧
    (∀ (fields : List (String × Val)),
      hasPatchedKey (prepareDeepValue (.recV fields false)) = true) ∧
    (∀ (items : List Val) (p : Bool),
      prepareDeepValue (.arrV items p) = .arrV items p) := by
  refine ⟨fun _ _ _ _ => rfl, fun _ _ _ _ => rfl, fun _ _ _ _ _ _ => rfl,
    fun _ _ _ _ _ _ _ _ => rfl, fun oldItem newItem s => ?_,
    fun i x d b c => ?_, fun _ _ => rfl, fun _ => rfl, fun _ _ => rfl⟩
  · unfold deepReplaceMethod koReplace
    cases h : s.data.findIdx? (fun v => valBeq v oldItem) <;> simp [h]
  · conv_rhs => rw [← prepareDeepValue_idem x]
    rfl

/-- Updating a map at an index yields the new value there. -/
theorem updAt_same {α : Type} (f : Nat → α) (i : Nat) (v : α) : updAt f i v i = v := by
  simp [updAt]

/-- Updating a map at an index leaves other indices unchanged. -/
theorem updAt_ne {α : Type} (f : Nat → α) (i : Nat) (v : α) (j : Nat) (h : ¬ j = i) :
    updAt f i v j = f j := by
  simp [updAt, h]

/-- Setter shape, self-assignment: when the incoming array is the cell's
current value, all strip/clone/patch bookkeeping is skipped and only the
cell is written. -/
theorem setter_self (s : ArrSys) (p newId : Nat) (h : s.cells p = some newId) :
    observableArraySetter s p newId = { s with cells := updAt s.cells p (some newId) } := by
  unfold observableArraySetter
  simp [h]

/-- Setter shape: no previous value, incoming array unmarked — the array
is marked and patched and wired to the cell. -/
theorem setter_none_unmarked (s : ArrSys) (p newId : Nat) (h : s.cells p = none)
    (hm : (s.arrs newId).2 = false) :
    observableArraySetter s p newId =
      { s with arrs := updAt s.arrs newId ((s.arrs newId).1, true),
               cells := updAt s.cells p (some newId) } := by
  unfold observableArraySetter
  simp [h, hm]

/-- Setter shape: no previous value, incoming array already marked — a
fresh clone is allocated, marked, patched, and wired instead. -/
theorem setter_none_marked (s : ArrSys) (p newId : Nat) (h : s.cells p = none)
    (hm : (s.arrs newId).2 = true) :
    observableArraySetter s p newId =
      { s with fresh := s.fresh + 1,
               arrs := updAt s.arrs s.fresh ((s.arrs newId).1, true),
               cells := updAt s.cells p (some s.fresh) } := by
  unfold observableArraySetter
  simp [h, hm, updAt_same]
  funext j
  by_cases hj : j = s.fresh
  · subst hj
    simp [updAt_same]
  · simp [updAt_ne _ _ _ _ hj]

/-- Setter shape: a marked previous array is detached (stripped of marker
and overrides) and an unmarked incoming array is marked, patched, and
wired. -/
theorem setter_detach_unmarked (s : ArrSys) (p newId oldId : Nat)
    (h : s.cells p = some oldId) (hne : ¬ oldId = newId)
    (hOldM : (s.arrs oldId).2 = true) (hm : (s.arrs newId).2 = false) :
    observableArraySetter s p newId =
      { s with arrs := updAt (updAt s.arrs oldId ((s.arrs oldId).1, false)) newId
                 ((s.arrs newId).1, true),
               cells := updAt s.cells p (some newId) } := by
  have hne' : ¬ newId = oldId := fun hh => hne hh.symm
  have hself : ¬ s.cells p = some newId := by
    rw [h]
    intro hh
    exact hne (Option.some.injEq _ _ ▸ hh)
  unfold observableArraySetter
  simp [h, hm, hOldM, hself, hne, updAt_ne _ _ _ _ hne']

/-- Setter shape: a marked previous array is detached and an already
marked incoming array is cloned before wiring. -/
theorem setter_detach_marked (s : ArrSys) (p newId oldId : Nat)
    (h : s.cells p = some oldId) (hne : ¬ oldId = newId)
    (hOldM : (s.arrs oldId).2 = true) (hm : (s.arrs newId).2 = true) :
    observableArraySetter s p newId =
      { s with fresh := s.fresh + 1,
               arrs := updAt (updAt s.arrs oldId ((s.arrs oldId).1, false)) s.fresh
                 ((s.arrs newId).1, true),
               cells := updAt s.cells p (some s.fresh) } := by
  have hne' : ¬ newId = oldId := fun hh => hne hh.symm
  have hself : ¬ s.cells p = some newId := by
    rw [h]
    intro hh
    exact hne (Option.some.injEq _ _ ▸ hh)
  unfold observableArraySetter
  simp [h, hm, hOldM, hself, hne, updAt_ne _ _ _ _ hne', updAt_same]
  have harr : updAt (updAt (updAt s.arrs oldId ((s.arrs oldId).1, false)) s.fresh
        ((s.arrs newId).1, false)) s.fresh ((s.arrs newId).1, true)
      = updAt (updAt s.arrs oldId ((s.arrs oldId).1, false)) s.fresh
        ((s.arrs newId).1, true) := by
    funext j
    by_cases hj : j = s.fresh
    · subst hj
      simp [updAt_same]
    · simp [updAt_ne _ _ _ _ hj]
  rw [harr]

/-- Reading an updated cell map: either the updated property or an
untouched one. -/
theorem updAt_cells_cases {cells : Nat → Option Nat} {p q w i : Nat}
    (h : updAt cells p (some w) q = some i) :
    (q = p ∧ i = w) ∨ (¬ q = p ∧ cells q = some i) := by
  by_cases hq : q = p
  · subst hq
    rw [updAt_same] at h
    exact Or.inl ⟨rfl, (Option.some.inj h).symm⟩
  · rw [updAt_ne _ _ _ _ hq] at h
    exact Or.inr ⟨hq, h⟩

/-- C4 (amended): on an assignment whose incoming value differs from the
cell's current value, a marked previous array is stripped of its marker
and overrides, and a marked incoming array is replaced by a fresh clone —
so well-formedness (no array is simultaneously the exposed array of two
properties, and every wired array is allocated and marked) is preserved
by every assignment; assigning the property's own current exposed array
skips the bookkeeping and keeps it wired and marked. -/
theorem C4_setter_ownership (s : ArrSys) (p newId : Nat) (hG : GoodSys s) (hNew : newId < s.fresh) :
    GoodSys (observableArraySetter s p newId) ∧
    (∀ oldId, s.cells p = some oldId → ¬ oldId = newId →
      ((observableArraySetter s p newId).arrs oldId).2 = false) ∧
    (¬ s.cells p = some newId → (s.arrs newId).2 = true →
      (observableArraySetter s p newId).cells p = some s.fresh ∧
      ¬ s.fresh = newId ∧
      ((observableArraySetter s p newId).arrs s.fresh).1 = (s.arrs newId).1) ∧
    (¬ s.cells p = some newId → (s.arrs newId).2 = false →
      (observableArraySetter s p newId).cells p = some newId ∧
      ((observableArraySetter s p newId).arrs newId).2 = true) := by
  obtain ⟨hDist, hHeld⟩ := hG
  by_cases hself : s.cells p = some newId
  · rw [setter_self s p newId hself]
    refine ⟨⟨?_, ?_⟩, ?_, ?_, ?_⟩
    · intro q r i j hqr hi hj
      dsimp only at hi hj
      rcases updAt_cells_cases hi with ⟨hq, hiw⟩ | ⟨hq, hcq⟩ <;>
        rcases updAt_cells_cases hj with ⟨hr, hjw⟩ | ⟨hr, hcr⟩
      · exact absurd (hq.trans hr.symm) hqr
      · rw [hq] at hqr
        rw [hiw]
        exact hDist p r newId j hqr hself hcr
      · rw [hr] at hqr
        rw [hjw]
        exact hDist q p i newId hqr hcq hself
      · exact hDist q r i j hqr hcq hcr
    · intro q i hi
      dsimp only at hi ⊢
      rcases updAt_cells_cases hi with ⟨hq, hiw⟩ | ⟨hq, hcq⟩
      · rw [hiw]
        exact hHeld p newId hself
      · exact hHeld q i hcq
    · intro oldId hOld hneq
      rw [hself] at hOld
      exact absurd (Option.some.inj hOld).symm hneq
    · intro hns
      exact absurd hself hns
    · intro hns
      exact absurd hself hns
  · cases hold : s.cells p with
    | none =>
      by_cases hm : (s.arrs newId).2 = true
      · rw [setter_none_marked s p newId hold hm]
        refine ⟨⟨?_, ?_⟩, ?_, ?_, ?_⟩
        · intro q r i j hqr hi hj
          dsimp only at hi hj
          rcases updAt_cells_cases hi with ⟨hq, hiw⟩ | ⟨hq, hcq⟩ <;>
            rcases updAt_cells_cases hj with ⟨hr, hjw⟩ | ⟨hr, hcr⟩
          · exact absurd (hq.trans hr.symm) hqr
          · subst hiw
            have := (hHeld r j hcr).1
            omega
          · subst hjw
            have := (hHeld q i hcq).1
            omega
          · exact hDist q r i j hqr hcq hcr
        · intro q i hi
          dsimp only at hi ⊢
          rcases updAt_cells_cases hi with ⟨hq, hiw⟩ | ⟨hq, hcq⟩
          · subst hiw
            refine ⟨by omega, ?_⟩
            rw [updAt_same]
          · obtain ⟨h1, h2⟩ := hHeld q i hcq
            refine ⟨by omega, ?_⟩
            have hif : ¬ i = s.fresh := by omega
            rw [updAt_ne _ _ _ _ hif]
            exact h2
        · intro oldId hOld hneq
          cases hOld
        · intro _ _
          dsimp only
          refine ⟨updAt_same _ _ _, by omega, ?_⟩
          rw [updAt_same]
        · intro _ hmf
          rw [hmf] at hm
          cases hm
      · replace hm : (s.arrs newId).2 = false := by
          cases h' : (s.arrs newId).2
          · rfl
          · exact absurd h' hm
        rw [setter_none_unmarked s p newId hold hm]
        refine ⟨⟨?_, ?_⟩, ?_, ?_, ?_⟩
        · intro q r i j hqr hi hj
          dsimp only at hi hj
          rcases updAt_cells_cases hi with ⟨hq, hiw⟩ | ⟨hq, hcq⟩ <;>
            rcases updAt_cells_cases hj with ⟨hr, hjw⟩ | ⟨hr, hcr⟩
          · exact absurd (hq.trans hr.symm) hqr
          · subst hiw
            intro hij
            rw [hij] at hm
            rw [(hHeld r j hcr).2] at hm
            cases hm
          · subst hjw
            intro hij
            rw [← hij] at hm
            rw [(hHeld q i hcq).2] at hm
            cases hm
          · exact hDist q r i j hqr hcq hcr
        · intro q i hi
          dsimp only at hi ⊢
          rcases updAt_cells_cases hi with ⟨hq, hiw⟩ | ⟨hq, hcq⟩
          · subst hiw
            refine ⟨hNew, ?_⟩
            rw [updAt_same]
          · obtain ⟨h1, h2⟩ := hHeld q i hcq
            refine ⟨h1, ?_⟩
            have hin : ¬ i = newId := by
              intro hh
              rw [hh, hm] at h2
              cases h2
            rw [updAt_ne _ _ _ _ hin]
            exact h2
        · intro oldId hOld hneq
          cases hOld
        · intro _ hmt
          rw [hmt] at hm
          cases hm
        · intro _ _
          dsimp only
          refine ⟨updAt_same _ _ _, ?_⟩
          rw [updAt_same]
    | some oldId =>
      have hne : ¬ oldId = newId := by
        intro hh
        rw [hh] at hold
        exact hself hold
      have hOldM : (s.arrs oldId).2 = true := (hHeld p oldId hold).2
      have hOldLt : oldId < s.fresh := (hHeld p oldId hold).1
      by_cases hm : (s.arrs newId).2 = true
      · rw [setter_detach_marked s p newId oldId hold hne hOldM hm]
        refine ⟨⟨?_, ?_⟩, ?_, ?_, ?_⟩
        · intro q r i j hqr hi hj
          dsimp only at hi hj
          rcases updAt_cells_cases hi with ⟨hq, hiw⟩ | ⟨hq, hcq⟩ <;>
            rcases updAt_cells_cases hj with ⟨hr, hjw⟩ | ⟨hr, hcr⟩
          · exact absurd (hq.trans hr.symm) hqr
          · subst hiw
            have := (hHeld r j hcr).1
            omega
          · subst hjw
            have := (hHeld q i hcq).1
            omega
          · exact hDist q r i j hqr hcq hcr
        · intro q i hi
          dsimp only at hi ⊢
          rcases updAt_cells_cases hi with ⟨hq, hiw⟩ | ⟨hq, hcq⟩
          · subst hiw
            refine ⟨by omega, ?_⟩
            rw [updAt_same]
          · obtain ⟨h1, h2⟩ := hHeld q i hcq
            refine ⟨by omega, ?_⟩
            have hif : ¬ i = s.fresh := by omega
            have hio : ¬ i = oldId := hDist q p i oldId hq hcq hold
            rw [updAt_ne _ _ _ _ hif, updAt_ne _ _ _ _ hio]
            exact h2
        · intro oldId' hOld' hneq
          have hoo : oldId' = oldId := (Option.some.inj hOld').symm
          subst hoo
          dsimp only
          have hof : ¬ oldId' = s.fresh := by omega
          rw [updAt_ne _ _ _ _ hof, updAt_same]
        · intro _ _
          dsimp only
          refine ⟨updAt_same _ _ _, by omega, ?_⟩
          rw [updAt_same]
        · intro _ hmf
          rw [hmf] at hm
          cases hm
      · replace hm : (s.arrs newId).2 = false := by
          cases h' : (s.arrs newId).2
          · rfl
          · exact absurd h' hm
        rw [setter_detach_unmarked s p newId oldId hold hne hOldM hm]
        refine ⟨⟨?_, ?_⟩, ?_, ?_, ?_⟩
        · intro q r i j hqr hi hj
          dsimp only at hi hj
          rcases updAt_cells_cases hi with ⟨hq, hiw⟩ | ⟨hq, hcq⟩ <;>
            rcases updAt_cells_cases hj with ⟨hr, hjw⟩ | ⟨hr, hcr⟩
          · exact absurd (hq.trans hr.symm) hqr
          · subst hiw
            intro hij
            rw [hij] at hm
            rw [(hHeld r j hcr).2] at hm
            cases hm
          · subst hjw
            intro hij
            rw [← hij] at hm
            rw [(hHeld q i hcq).2] at hm
            cases hm
          · exact hDist q r i j hqr hcq hcr
        · intro q i hi
          dsimp only at hi ⊢
          rcases updAt_cells_cases hi with ⟨hq, hiw⟩ | ⟨hq, hcq⟩
          · subst hiw
            refine ⟨hNew, ?_⟩
            rw [updAt_same]
          · obtain ⟨h1, h2⟩ := hHeld q i hcq
            refine ⟨h1, ?_⟩
            have hin : ¬ i = newId := by
              intro hh
              rw [hh, hm] at h2
              cases h2
            have hio : ¬ i = oldId := hDist q p i oldId hq hcq hold
            rw [updAt_ne _ _ _ _ hin, updAt_ne _ _ _ _ hio]
            exact h2
        · intro oldId' hOld' hneq
          have hoo : oldId' = oldId := (Option.some.inj hOld').symm
          subst hoo
          dsimp only
          rw [updAt_ne _ _ _ _ hne, updAt_same]
        · intro _ hmt
          rw [hmt] at hm
          cases hm
        · intro _ _
          dsimp only
          refine ⟨updAt_same _ _ _, ?_⟩
          rw [updAt_same]

/-- C4 counterexample: assigning a property its own current exposed array —
the previously stored value is a materialized exposed array, yet its
marker and method overrides are *not* removed (the `lastValue !== newValue`
guard skips the stripping), refuting the claim's "on every assignment"
reading. -/
theorem C4_self_assignment_keeps_marker :
    (sysSelf.arrs 0).2 = true ∧
    sysSelf.cells 0 = some 0 ∧
    ((observableArraySetter sysSelf 0 0).arrs 0).2 = true ∧
    (observableArraySetter sysSelf 0 0).cells 0 = some 0 := by
  refine ⟨rfl, rfl, ?_, ?_⟩ <;> rfl

/-- C4 witness: wiring the unmarked array 0 to property 0 of the initial
state marks it and stores it in the cell. -/
theorem C4_setter_ownership_witness :
    (observableArraySetter sysInit 0 0).cells 0 = some 0 ∧
    ((observableArraySetter sysInit 0 0).arrs 0).2 = true :=
  (C4_setter_ownership sysInit 0 0
    (by
      constructor
      · intro q r i j hqr hi hj
        exact absurd hi (by simp [sysInit])
      · intro q i hi
        exact absurd hi (by simp [sysInit]))
    (by decide)).2.2.2 (by decide) (by decide)
